import Mathlib

/-!
Shallow embedding of the plopp plotting library (scipp visualization
front-end) for checking the natural-language specification against the
code.  Numeric values are modelled as rationals; the numpy sentinels
np.inf and np.NINF, used as initial bounds that any finite value
replaces, are modelled by an extended rational type XRat.  Fallible
operations return Option or Except.
-/

namespace Plopp

/-- Extended rationals: a rational, plus positive and negative infinity.
These model the floating-point sentinels np.inf and np.NINF used by the
source as initial values for running minima and maxima. -/
inductive XRat where
  | ninf : XRat
  | fin : ℚ → XRat
  | pinf : XRat
deriving DecidableEq, Repr

/-- Strict comparison on extended rationals, mirroring the float
comparison used by the Python source. -/
def XRat.ltb : XRat → XRat → Bool
  | .ninf, .ninf => false
  | .ninf, _ => true
  | _, .ninf => false
  | .pinf, _ => false
  | .fin _, .pinf => true
  | .fin a, .fin b => decide (a < b)

/-- Non-strict comparison on extended rationals. -/
def XRat.leb : XRat → XRat → Bool
  | .ninf, _ => true
  | _, .pinf => true
  | .pinf, _ => false
  | _, .ninf => false
  | .fin a, .fin b => decide (a ≤ b)

/-- Binary minimum on extended rationals, mirroring the builtin min used
on floats by the source: the second argument wins only when strictly
smaller. -/
def XRat.minB (a b : XRat) : XRat := if XRat.ltb b a then b else a

/-- Binary maximum on extended rationals, mirroring the builtin max used
on floats by the source: the second argument wins only when strictly
larger. -/
def XRat.maxB (a b : XRat) : XRat := if XRat.ltb a b then b else a

/-- Minimum of a nonempty list of rationals, with a default for the
empty list (numpy would raise there). -/
def listMin : List ℚ → ℚ
  | [] => 0
  | x :: xs => xs.foldl min x

/-- Maximum of a nonempty list of rationals, with a default for the
empty list. -/
def listMax : List ℚ → ℚ
  | [] => 0
  | x :: xs => xs.foldl max x

/-- Modelled from the spec: the helpers find_limits and fix_empty_range
live in plopp.core.limits, which is not among the provided source files.
The spec describes them only as computing the range of the data for
colormap and axis-limit autoscaling, so they are modelled as returning
the minimum and the maximum of the data values. -/
def findLimits (values : List ℚ) : ℚ × ℚ := (listMin values, listMax values)

/-- State of graphics.colormapper.ColorMapper that is relevant to the
colour-range autoscaling logic: the optional user-supplied bounds, the
running bounds vmin and vmax (initialised to np.inf and np.NINF), and
the bounds pushed to the matplotlib normalizer by update. -/
structure ColorMapper where
  user_vmin : Option ℚ
  user_vmax : Option ℚ
  vmin : XRat
  vmax : XRat
  norm_vmin : XRat
  norm_vmax : XRat
deriving DecidableEq, Repr

/-- A ColorMapper as produced by ColorMapper.__init__: vmin = np.inf and
vmax = np.NINF, with no user-supplied bounds. -/
def initCM : ColorMapper :=
  { user_vmin := none, user_vmax := none, vmin := XRat.pinf, vmax := XRat.ninf,
    norm_vmin := XRat.pinf, norm_vmax := XRat.ninf }

/-- Lower half of ColorMapper.autoscale: force vmin to the
user-supplied bound when present, otherwise lower it to the found
minimum when that is smaller. -/
def ColorMapper.scaleVmin (s : ColorMapper) (lo : ℚ) : ColorMapper :=
  match s.user_vmin with
  | some uv => { s with vmin := XRat.fin uv }
  | none =>
    if XRat.ltb (XRat.fin lo) s.vmin then { s with vmin := XRat.fin lo } else s

/-- Upper half of ColorMapper.autoscale: force vmax to the
user-supplied bound when present, otherwise raise it to the found
maximum when that is larger. -/
def ColorMapper.scaleVmax (s : ColorMapper) (hi : ℚ) : ColorMapper :=
  match s.user_vmax with
  | some uv => { s with vmax := XRat.fin uv }
  | none =>
    if XRat.ltb s.vmax (XRat.fin hi) then { s with vmax := XRat.fin hi } else s

/-- ColorMapper.autoscale: recompute the found limits of the new data,
then apply the vmin branch followed by the vmax branch. -/
def ColorMapper.autoscale (s : ColorMapper) (values : List ℚ) : ColorMapper :=
  let lims := findLimits values
  (s.scaleVmin lims.1).scaleVmax lims.2

/-- ColorMapper.update: autoscale on the new data, then copy the new
bounds into the normalizer (the remaining body only refreshes labels and
child colours). -/
def ColorMapper.update (s : ColorMapper) (values : List ℚ) : ColorMapper :=
  let s1 := s.autoscale values
  { s1 with norm_vmin := s1.vmin, norm_vmax := s1.vmax }

/-- Modelled from the spec: merge_masks from plopp.core.utils is not
among the provided source files; the spec speaks of positions covered by
the merged masks, so it is modelled as the pointwise disjunction of all
masks, as used by ColorMapper.rgba and Mesh._set_mesh_colors. -/
def mergeMasks : List (List Bool) → List Bool
  | [] => []
  | m :: ms => ms.foldl (fun acc b => acc.zipWith or b) m

/-- ColorMapper.rgba: apply the main colormap to the normalized data
values, then overwrite the entries covered by the merged masks with the
mask colormap applied to the same normalized values (the matplotlib
Normalize object acts elementwise, so normalizing the masked subset
coincides with normalizing each masked element). -/
def rgba {α : Type} (cmap maskCmap : ℚ → α) (normalizer : ℚ → ℚ)
    (values : List ℚ) (masks : List (List Bool)) : List α :=
  let colors := values.map (fun v => cmap (normalizer v))
  if masks.isEmpty then colors
  else
    let one := mergeMasks masks
    (colors.zip (values.zip one)).map
      (fun p => if p.2.2 then maskCmap (normalizer p.2.1) else p.1)

/-- Reference form of rgba for the specification claim: at every
position covered by the merged mask the colour is the mask colormap of
the normalized value, and elsewhere it is the main colormap of the
normalized value. -/
def rgbaPointwise {α : Type} (cmap maskCmap : ℚ → α) (normalizer : ℚ → ℚ)
    (values : List ℚ) (coverage : List Bool) : List α :=
  List.zipWith
    (fun v b => if b then maskCmap (normalizer v) else cmap (normalizer v))
    values coverage

/-- State of the debounce decorator from widgets.cut3d: the pending
timer, if any, as a deadline paired with the captured call arguments.
Time is modelled explicitly as a rational. -/
structure DebounceState where
  pending : Option (ℚ × ℕ)
deriving DecidableEq, Repr

/-- One call of the debounced wrapper at time t with arguments a: any
pending timer is cancelled, and a new timer is started that will run the
wrapped function with these arguments at time t + wait. -/
def debouncedInvoke (wait t : ℚ) (a : ℕ) (s : DebounceState) : DebounceState :=
  match s.pending with
  | some _ => { pending := some (t + wait, a) }
  | none => { pending := some (t + wait, a) }

/-- Event-loop step: before handling an event at time t, a pending timer
whose deadline has already passed fires, executing the wrapped function
with its captured arguments. -/
def fireDue (t : ℚ) (s : DebounceState) : List (ℚ × ℕ) × DebounceState :=
  match s.pending with
  | some p => if p.1 < t then ([p], { pending := none }) else ([], s)
  | none => ([], s)

/-- Process a time-ordered list of invocations of the debounced wrapper,
collecting the executions of the wrapped function body that occur along
the way. -/
def runBurst (wait : ℚ) : DebounceState → List (ℚ × ℕ) → List (ℚ × ℕ) × DebounceState
  | s, [] => ([], s)
  | s, (t, a) :: rest =>
    let fd := fireDue t s
    let r := runBurst wait (debouncedInvoke wait t a fd.2) rest
    (fd.1 ++ r.1, r.2)

/-- After the burst is over, a still-pending timer eventually fires. -/
def flushPending (s : DebounceState) : List (ℚ × ℕ) :=
  match s.pending with
  | some p => [p]
  | none => []

/-- All executions of the wrapped function body produced by a finite
burst of invocations followed by quiescence. -/
def runDebounced (wait : ℚ) (invs : List (ℚ × ℕ)) : List (ℚ × ℕ) :=
  let r := runBurst wait { pending := none } invs
  r.1 ++ flushPending r.2

/-- Last element of a nonempty list given as head and tail. -/
def lastP (p : ℚ × ℕ) : List (ℚ × ℕ) → ℚ × ℕ
  | [] => p
  | q :: r => lastP q r

/-- Burst spacing condition: times are nondecreasing and consecutive
invocations are spaced less than wait apart. -/
def closelySpaced (wait : ℚ) (p q : ℚ × ℕ) : Prop :=
  p.1 ≤ q.1 ∧ q.1 - p.1 < wait

instance (wait : ℚ) (p q : ℚ × ℕ) : Decidable (closelySpaced wait p q) :=
  inferInstanceAs (Decidable (p.1 ≤ q.1 ∧ q.1 - p.1 < wait))

/-- Artifacts created by functions.inspector.inspector after its input
validation: the 2d figure, the 1d figure, the points tool and the
returned Box. -/
inductive InspectorArtifact where
  | fig2dA : InspectorArtifact
  | fig1dA : InspectorArtifact
  | pointsToolA : InspectorArtifact
  | boxA : InspectorArtifact
deriving DecidableEq, Repr

/-- functions.inspector.inspector, reduced to its control flow around
the dimension check: the ndim check comes first, and only on the
three-dimensional path are the figures, the tool and the box created.
The result pairs the artifacts created with the raised ValueError
message, if any. -/
def inspectorRun (ndim : ℕ) : List InspectorArtifact × Option String :=
  if ndim ≠ 3 then
    ([], some "The inspector plot currently only work with three-dimensional data")
  else
    ([InspectorArtifact.fig2dA, InspectorArtifact.fig1dA,
      InspectorArtifact.pointsToolA, InspectorArtifact.boxA], none)

/-- A scipp-like data array as seen by the scatter plotting path: a
binned flag and named coordinates. -/
structure SDA where
  binned : Bool
  coords : List (String × ℚ)
deriving DecidableEq, Repr

/-- Lookup of a named coordinate. -/
def lookupCoord : List (String × ℚ) → String → Option ℚ
  | [], _ => none
  | (d, v) :: rest, k => if d = k then some v else lookupCoord rest k

/-- Modelled from the spec: from_compatible_lib in plotting.common is
not among the provided source files; it converts inputs from compatible
libraries and returns native data arrays unchanged, so on the modelled
data arrays it is the identity. -/
def fromCompatibleLib (da : SDA) : SDA := da

/-- Modelled from the spec: check_not_binned in plotting.common is not
among the provided source files; the spec lists the input-validation
raise for binned data, so it is modelled as raising exactly when the
input is binned. -/
def checkNotBinned (da : SDA) : Except String Unit :=
  if da.binned then Except.error "Cannot plot binned data" else Except.ok ()

/-- plotting.scatter._preprocess_scatter: convert the input, run the
binned-data validation, and only then extract the x, y and optional
size coordinates into the output data array. -/
def preprocessScatter (obj : SDA) (x y : String) (size : Option String) :
    Except String SDA :=
  let da := fromCompatibleLib obj
  match checkNotBinned da with
  | Except.error e => Except.error e
  | Except.ok _ =>
    let cnames := [x, y] ++ (match size with | some s2 => [s2] | none => [])
    match cnames.mapM (fun k => (lookupCoord da.coords k).map (fun v => (k, v))) with
    | some cs => Except.ok { binned := da.binned, coords := cs }
    | none => Except.error "coordinate not found"

/-- Result of the scatter plotting function: the figure built from the
preprocessed input. -/
inductive ScatterOut where
  | figureMade : SDA → ScatterOut
deriving DecidableEq, Repr

/-- plotting.scatter.scatter: preprocess the input and build the figure
from it; a preprocessing error propagates and no figure is made. -/
def scatterRun (obj : SDA) (x y : String) (size : Option String) :
    Except String ScatterOut :=
  match preprocessScatter obj x y size with
  | Except.error e => Except.error e
  | Except.ok da => Except.ok (ScatterOut.figureMade da)

/-- A scipp scalar: a value carrying a unit. -/
structure InspScalar where
  value : ℚ
  unit : String
deriving DecidableEq, Repr

/-- A matplotlib pick event carrying the x and y data positions. -/
structure InspEvent where
  xdata : ℚ
  ydata : ℚ
deriving DecidableEq, Repr

/-- The value produced by the event-node function: the dict mapping the
x and y dims of the 2d figure to scalars carrying the units of the
corresponding coordinates. -/
abbrev InspPos := (String × InspScalar) × (String × InspScalar)

/-- The parts of functions.inspector.InspectorEventHandler used by
update_node: the displayed dims and the units of the inspected data
array coordinates. -/
structure InspHandler where
  xdim : String
  ydim : String
  metaUnit : String → String

/-- The function installed on the event node by update_node: it returns
the new x/y event positions as scalars carrying the units of the
corresponding coordinates of the inspected data array. -/
def newPosFunc (h : InspHandler) (ev : InspEvent) : InspPos :=
  ((h.xdim, { value := ev.xdata, unit := h.metaUnit h.xdim }),
   (h.ydim, { value := ev.ydata, unit := h.metaUnit h.ydim }))

/-- Modelled from the spec: the Node class of the reactive dependency
graph is not among the provided source files.  Per the spec glossary a
node is a cell that recomputes derived data when an upstream value
changes, notifying registered views; this models one event node with its
thunk, the derived computations of its children, and the values last
rendered by the dependent views. -/
structure InspGraph (β : Type) where
  nodeFunc : Unit → InspPos
  childComputes : List (InspPos → β)
  childViews : List β

/-- Modelled from the spec: Node.notify_children makes every dependent
view recompute its derived data from the current upstream function. -/
def notifyChildren {β : Type} (g : InspGraph β) : InspGraph β :=
  { g with childViews := g.childComputes.map (fun f => f (g.nodeFunc ())) }

/-- InspectorEventHandler.update_node: first replace the stored event
node function with one returning the new positions, and only then
notify that node's children. -/
def updateNode {β : Type} (h : InspHandler) (g : InspGraph β)
    (ev : InspEvent) : InspGraph β :=
  let g1 := { g with nodeFunc := fun _ => newPosFunc h ev }
  notifyChildren g1

/-- The autoscale mode of the matplotlib Canvas. -/
inductive AutoscaleMode where
  | auto : AutoscaleMode
  | grow : AutoscaleMode
deriving DecidableEq, Repr

/-- The coordinate arrays of one QuadMesh artist on the axes. -/
structure MeshCoords where
  xs : List ℚ
  ys : List ℚ
deriving DecidableEq, Repr

/-- State of backends.matplotlib.canvas.Canvas relevant to autoscaling:
the user-supplied vertical bounds, the autoscale mode, and the stored
axis bounds _xmin, _xmax, _ymin, _ymax (initialised to np.inf or
np.NINF). -/
structure Canvas where
  user_vmin : Option ℚ
  user_vmax : Option ℚ
  autoscaleMode : AutoscaleMode
  xmin : XRat
  xmax : XRat
  ymin : XRat
  ymax : XRat
deriving DecidableEq, Repr

/-- The limits computed by Canvas.autoscale from the current artists:
start from the matplotlib line limits when lines are present (infinite
sentinels otherwise), then widen by the limit range of every QuadMesh
coordinate array. -/
def artistLimits (linesLims : Option ((ℚ × ℚ) × (ℚ × ℚ)))
    (meshes : List MeshCoords) : (XRat × XRat) × (XRat × XRat) :=
  let init :=
    match linesLims with
    | some lims =>
      ((XRat.fin lims.1.1, XRat.fin lims.1.2), (XRat.fin lims.2.1, XRat.fin lims.2.2))
    | none => ((XRat.pinf, XRat.ninf), (XRat.pinf, XRat.ninf))
  meshes.foldl
    (fun acc m =>
      let xl := findLimits m.xs
      let yl := findLimits m.ys
      ((XRat.minB acc.1.1 (XRat.fin xl.1), XRat.maxB acc.1.2 (XRat.fin xl.2)),
        (XRat.minB acc.2.1 (XRat.fin yl.1), XRat.maxB acc.2.2 (XRat.fin yl.2))))
    init

/-- Canvas.autoscale: compute the limits from the current artists; in
grow mode merge them into the stored bounds with min/max, in auto mode
replace the stored bounds; finally user-supplied vertical bounds
override the vertical results. -/
def Canvas.autoscale (c : Canvas) (linesLims : Option ((ℚ × ℚ) × (ℚ × ℚ)))
    (meshes : List MeshCoords) : Canvas :=
  let lims := artistLimits linesLims meshes
  let c1 :=
    match c.autoscaleMode with
    | AutoscaleMode.grow =>
      { c with xmin := XRat.minB c.xmin lims.1.1, xmax := XRat.maxB c.xmax lims.1.2,
               ymin := XRat.minB c.ymin lims.2.1, ymax := XRat.maxB c.ymax lims.2.2 }
    | AutoscaleMode.auto =>
      { c with xmin := lims.1.1, xmax := lims.1.2, ymin := lims.2.1, ymax := lims.2.2 }
  let c2 :=
    match c1.user_vmin with
    | some uv => { c1 with ymin := XRat.fin uv }
    | none => c1
  match c2.user_vmax with
  | some uv => { c2 with ymax := XRat.fin uv }
  | none => c2

/-- A labeled multi-dimensional array, modelled by its dimension list,
its size along each dimension, and a value for every index assignment.
Positional slicing along a dimension requires the dimension to be
present and the index to be in range, as in scipp. -/
structure DArr where
  dims : List String
  sizes : String → ℕ
  val : (String → ℕ) → ℚ

/-- Positional slicing da[dim, i]: drop the dimension and fix its index,
failing when the dimension is absent or the index is out of range. -/
def sliceOneD (da : DArr) (d : String) (i : ℕ) : Option DArr :=
  if d ∈ da.dims ∧ i < da.sizes d then
    some { dims := da.dims.erase d, sizes := da.sizes,
           val := fun ix => da.val (fun k => if k = d then i else ix k) }
  else none

/-- widgets.slice.slice_dims: starting from the input data array, slice
successively along each dimension in the dict at the given position, in
the dict's iteration order (a Python dict iterates in insertion order,
modelled by an association list). -/
def sliceDims (da : DArr) (slices : List (String × ℕ)) : Option DArr :=
  slices.foldl (fun out p => Option.bind out (fun o => sliceOneD o p.1 p.2)) (some da)

/-- Reference form for the slice_dims claim: successive slicing written
as structural recursion over the dict entries. -/
def sliceSeq : DArr → List (String × ℕ) → Option DArr
  | da, [] => some da
  | da, p :: rest =>
    match sliceOneD da p.1 p.2 with
    | some o => sliceSeq o rest
    | none => none

/-- The three pairs of limits of one point cloud child of a ScatterFig,
as returned by child.get_limits(). -/
abbrev Lims3 := (ℚ × ℚ) × ((ℚ × ℚ) × (ℚ × ℚ))

/-- One step of the ScatterFig.get_limits loop for a lower bound: take
the new value when no bound is held yet or the new value is smaller. -/
def updMin (acc : Option ℚ) (v : ℚ) : Option ℚ :=
  match acc with
  | none => some v
  | some a => if v < a then some v else some a

/-- One step of the ScatterFig.get_limits loop for an upper bound: take
the new value when no bound is held yet or the new value is larger. -/
def updMax (acc : Option ℚ) (v : ℚ) : Option ℚ :=
  match acc with
  | none => some v
  | some a => if a < v then some v else some a

/-- graphics.scatterfig.ScatterFig.get_limits: fold over the children,
keeping for each of the three axes the smallest lower and the largest
upper limit seen, starting from None accumulators. -/
def scatterGetLimits (children : List Lims3) :
    (Option ℚ × Option ℚ) × ((Option ℚ × Option ℚ) × (Option ℚ × Option ℚ)) :=
  children.foldl
    (fun acc ch =>
      ((updMin acc.1.1 ch.1.1, updMax acc.1.2 ch.1.2),
        ((updMin acc.2.1.1 ch.2.1.1, updMax acc.2.1.2 ch.2.1.2),
          (updMin acc.2.2.1 ch.2.2.1, updMax acc.2.2.2 ch.2.2.2))))
    ((none, none), ((none, none), (none, none)))

/-- widgets.slice.SliceWidget.__init__: the slider for a dimension is
built with min 0 and max equal to the full size of the data array along
that dimension. -/
def sliderMaxOf (da : DArr) (dim : String) : ℕ := da.sizes dim

/-- widgets.slice.SliceWidget.__init__: the slider minimum. -/
def sliderMinOf (_da : DArr) (_dim : String) : ℕ := 0

/-- A concrete data array with one dimension of size 2, used to exhibit
the out-of-range slider maximum of SliceWidget. -/
def exDA : DArr :=
  { dims := ["x"], sizes := fun _ => 2, val := fun ix => (ix "x" : ℚ) }

end Plopp

namespace Plopp

theorem XRat.leb_refl (a : XRat) : XRat.leb a a = true := by
  cases a <;> simp [XRat.leb]

theorem XRat.ltb_imp_leb {a b : XRat} (h : XRat.ltb a b = true) :
    XRat.leb a b = true := by
  cases a <;> cases b <;> simp_all [XRat.ltb, XRat.leb]
  exact le_of_lt h

theorem XRat.not_ltb_imp_leb {a b : XRat} (h : XRat.ltb a b = false) :
    XRat.leb b a = true := by
  cases a <;> cases b <;> simp_all [XRat.ltb, XRat.leb]

theorem XRat.leb_trans {a b c : XRat} (h1 : XRat.leb a b = true)
    (h2 : XRat.leb b c = true) : XRat.leb a c = true := by
  cases a <;> cases b <;> cases c <;> simp_all [XRat.leb]
  exact le_trans h1 h2

theorem XRat.leb_fin_iff {a b : ℚ} :
    XRat.leb (XRat.fin a) (XRat.fin b) = true ↔ a ≤ b := by
  simp [XRat.leb]

theorem XRat.minB_leb_left (a b : XRat) : XRat.leb (XRat.minB a b) a = true := by
  unfold XRat.minB
  split
  · next h => exact XRat.ltb_imp_leb h
  · exact XRat.leb_refl _

theorem XRat.leb_maxB_left (a b : XRat) : XRat.leb a (XRat.maxB a b) = true := by
  unfold XRat.maxB
  split
  · next h => exact XRat.ltb_imp_leb h
  · exact XRat.leb_refl _

theorem foldl_min_le_init (xs : List ℚ) (a : ℚ) : xs.foldl min a ≤ a := by
  induction xs generalizing a with
  | nil => exact le_refl a
  | cons x xs ih =>
    exact le_trans (ih (min a x)) (min_le_left a x)

theorem foldl_min_le_mem {xs : List ℚ} {v : ℚ} (a : ℚ) (hv : v ∈ xs) :
    xs.foldl min a ≤ v := by
  induction xs generalizing a with
  | nil => cases hv
  | cons x xs ih =>
    rcases List.mem_cons.mp hv with h | h
    · subst h
      exact le_trans (foldl_min_le_init xs (min a v)) (min_le_right a v)
    · exact ih (min a x) h

theorem init_le_foldl_max (xs : List ℚ) (a : ℚ) : a ≤ xs.foldl max a := by
  induction xs generalizing a with
  | nil => exact le_refl a
  | cons x xs ih =>
    exact le_trans (le_max_left a x) (ih (max a x))

theorem mem_le_foldl_max {xs : List ℚ} {v : ℚ} (a : ℚ) (hv : v ∈ xs) :
    v ≤ xs.foldl max a := by
  induction xs generalizing a with
  | nil => cases hv
  | cons x xs ih =>
    rcases List.mem_cons.mp hv with h | h
    · subst h
      exact le_trans (le_max_right a v) (init_le_foldl_max xs (max a v))
    · exact ih (max a x) h

theorem listMin_le_mem {xs : List ℚ} {v : ℚ} (hv : v ∈ xs) : listMin xs ≤ v := by
  cases xs with
  | nil => cases hv
  | cons x xs =>
    rcases List.mem_cons.mp hv with h | h
    · subst h; exact foldl_min_le_init xs v
    · exact foldl_min_le_mem x h

theorem mem_le_listMax {xs : List ℚ} {v : ℚ} (hv : v ∈ xs) : v ≤ listMax xs := by
  cases xs with
  | nil => cases hv
  | cons x xs =>
    rcases List.mem_cons.mp hv with h | h
    · subst h; exact init_le_foldl_max xs v
    · exact mem_le_foldl_max x h

theorem scaleVmin_fields (s : ColorMapper) (lo : ℚ) :
    (s.scaleVmin lo).user_vmin = s.user_vmin ∧
      (s.scaleVmin lo).user_vmax = s.user_vmax ∧
      (s.scaleVmin lo).vmax = s.vmax := by
  unfold ColorMapper.scaleVmin
  rcases h1 : s.user_vmin with _ | uv <;> simp [h1]
  split <;> simp [h1]

theorem scaleVmax_fields (s : ColorMapper) (hi : ℚ) :
    (s.scaleVmax hi).user_vmin = s.user_vmin ∧
      (s.scaleVmax hi).user_vmax = s.user_vmax ∧
      (s.scaleVmax hi).vmin = s.vmin := by
  unfold ColorMapper.scaleVmax
  rcases h2 : s.user_vmax with _ | uv <;> simp [h2]
  split <;> simp [h2]

theorem scaleVmin_le (s : ColorMapper) (lo : ℚ) (hm : s.user_vmin = none) :
    XRat.leb (s.scaleVmin lo).vmin s.vmin = true := by
  simp only [ColorMapper.scaleVmin, hm]
  split
  · next h => exact XRat.ltb_imp_leb h
  · exact XRat.leb_refl _

theorem scaleVmin_covers (s : ColorMapper) (lo : ℚ) (hm : s.user_vmin = none) :
    XRat.leb (s.scaleVmin lo).vmin (XRat.fin lo) = true := by
  simp only [ColorMapper.scaleVmin, hm]
  split
  · exact XRat.leb_refl _
  · next h => exact XRat.not_ltb_imp_leb (by simp_all)

theorem scaleVmax_ge (s : ColorMapper) (hi : ℚ) (hM : s.user_vmax = none) :
    XRat.leb s.vmax (s.scaleVmax hi).vmax = true := by
  simp only [ColorMapper.scaleVmax, hM]
  split
  · next h => exact XRat.ltb_imp_leb h
  · exact XRat.leb_refl _

theorem scaleVmax_covers (s : ColorMapper) (hi : ℚ) (hM : s.user_vmax = none) :
    XRat.leb (XRat.fin hi) (s.scaleVmax hi).vmax = true := by
  simp only [ColorMapper.scaleVmax, hM]
  split
  · exact XRat.leb_refl _
  · next h => exact XRat.not_ltb_imp_leb (by simp_all)

theorem autoscale_user_fields (s : ColorMapper) (d : List ℚ) :
    (s.autoscale d).user_vmin = s.user_vmin ∧
      (s.autoscale d).user_vmax = s.user_vmax := by
  unfold ColorMapper.autoscale
  exact ⟨((scaleVmax_fields _ _).1).trans (scaleVmin_fields s _).1,
    ((scaleVmax_fields _ _).2.1).trans (scaleVmin_fields s _).2.1⟩

theorem update_user_fields (s : ColorMapper) (d : List ℚ) :
    (s.update d).user_vmin = s.user_vmin ∧
      (s.update d).user_vmax = s.user_vmax := by
  unfold ColorMapper.update
  exact autoscale_user_fields s d

theorem autoscale_vmin_le (s : ColorMapper) (d : List ℚ)
    (hm : s.user_vmin = none) :
    XRat.leb (s.autoscale d).vmin s.vmin = true := by
  unfold ColorMapper.autoscale
  rw [(scaleVmax_fields _ _).2.2]
  exact scaleVmin_le s _ hm

theorem autoscale_vmax_ge (s : ColorMapper) (d : List ℚ)
    (hM : s.user_vmax = none) :
    XRat.leb s.vmax (s.autoscale d).vmax = true := by
  unfold ColorMapper.autoscale
  have h := scaleVmax_ge (s.scaleVmin (findLimits d).1) (findLimits d).2
    (((scaleVmin_fields s _).2.1).trans hM)
  rw [(scaleVmin_fields s _).2.2] at h
  exact h

theorem autoscale_vmin_covers (s : ColorMapper) (d : List ℚ)
    (hm : s.user_vmin = none) :
    XRat.leb (s.autoscale d).vmin (XRat.fin (findLimits d).1) = true := by
  unfold ColorMapper.autoscale
  rw [(scaleVmax_fields _ _).2.2]
  exact scaleVmin_covers s _ hm

theorem autoscale_vmax_covers (s : ColorMapper) (d : List ℚ)
    (hM : s.user_vmax = none) :
    XRat.leb (XRat.fin (findLimits d).2) (s.autoscale d).vmax = true := by
  unfold ColorMapper.autoscale
  exact scaleVmax_covers (s.scaleVmin (findLimits d).1) (findLimits d).2
    (((scaleVmin_fields s _).2.1).trans hM)

theorem update_vmin_le (s : ColorMapper) (d : List ℚ)
    (hm : s.user_vmin = none) :
    XRat.leb (s.update d).vmin s.vmin = true :=
  autoscale_vmin_le s d hm

theorem update_vmax_ge (s : ColorMapper) (d : List ℚ)
    (hM : s.user_vmax = none) :
    XRat.leb s.vmax (s.update d).vmax = true :=
  autoscale_vmax_ge s d hM

theorem fold_update_user_fields (ds : List (List ℚ)) (s : ColorMapper) :
    (List.foldl ColorMapper.update s ds).user_vmin = s.user_vmin ∧
      (List.foldl ColorMapper.update s ds).user_vmax = s.user_vmax := by
  induction ds generalizing s with
  | nil => exact ⟨rfl, rfl⟩
  | cons d ds ih =>
    have h := ih (s.update d)
    have hu := update_user_fields s d
    simp only [List.foldl_cons]
    exact ⟨h.1.trans hu.1, h.2.trans hu.2⟩

theorem fold_update_vmin_le (ds : List (List ℚ)) (s : ColorMapper)
    (hm : s.user_vmin = none) :
    XRat.leb (List.foldl ColorMapper.update s ds).vmin s.vmin = true := by
  induction ds generalizing s with
  | nil => exact XRat.leb_refl _
  | cons d ds ih =>
    simp only [List.foldl_cons]
    have h1 := ih (s.update d) (((update_user_fields s d).1).trans hm)
    exact XRat.leb_trans h1 (update_vmin_le s d hm)

theorem fold_update_vmax_ge (ds : List (List ℚ)) (s : ColorMapper)
    (hM : s.user_vmax = none) :
    XRat.leb s.vmax (List.foldl ColorMapper.update s ds).vmax = true := by
  induction ds generalizing s with
  | nil => exact XRat.leb_refl _
  | cons d ds ih =>
    simp only [List.foldl_cons]
    have h1 := ih (s.update d) (((update_user_fields s d).2).trans hM)
    exact XRat.leb_trans (update_vmax_ge s d hM) h1

theorem fold_update_covers (ds : List (List ℚ)) (s : ColorMapper)
    (hm : s.user_vmin = none) (hM : s.user_vmax = none) :
    ∀ x, x ∈ ds → ∀ v, v ∈ x →
      XRat.leb (List.foldl ColorMapper.update s ds).vmin (XRat.fin v) = true ∧
        XRat.leb (XRat.fin v) (List.foldl ColorMapper.update s ds).vmax = true := by
  induction ds generalizing s with
  | nil => intro x hx; cases hx
  | cons d ds ih =>
    intro x hx v hv
    simp only [List.foldl_cons]
    have hu := update_user_fields s d
    rcases List.mem_cons.mp hx with h | h
    · subst h
      constructor
      · have h1 := fold_update_vmin_le ds (s.update x) (hu.1.trans hm)
        have h2 := autoscale_vmin_covers s x hm
        have h3 : XRat.leb (XRat.fin (findLimits x).1) (XRat.fin v) = true :=
          XRat.leb_fin_iff.mpr (listMin_le_mem hv)
        exact XRat.leb_trans h1 (XRat.leb_trans h2 h3)
      · have h1 := fold_update_vmax_ge ds (s.update x) (hu.2.trans hM)
        have h2 := autoscale_vmax_covers s x hM
        have h3 : XRat.leb (XRat.fin v) (XRat.fin (findLimits x).2) = true :=
          XRat.leb_fin_iff.mpr (mem_le_listMax hv)
        exact XRat.leb_trans (XRat.leb_trans h3 h2) h1
    · exact ih (s.update d) (hu.1.trans hm) (hu.2.trans hM) x h v hv

/-- C1: for a ColorMapper created without user-supplied vmin/vmax, every
call to update leaves vmin no larger and vmax no smaller than before,
and the range after any sequence of updates covers every data value seen
since construction. -/
theorem colormapper_range_only_grows (ds : List (List ℚ)) (d : List ℚ) :
    (XRat.leb ((List.foldl ColorMapper.update initCM ds).update d).vmin
        (List.foldl ColorMapper.update initCM ds).vmin = true ∧
      XRat.leb (List.foldl ColorMapper.update initCM ds).vmax
        ((List.foldl ColorMapper.update initCM ds).update d).vmax = true) ∧
      ∀ x, x ∈ ds → ∀ v, v ∈ x →
        XRat.leb (List.foldl ColorMapper.update initCM ds).vmin (XRat.fin v) = true ∧
          XRat.leb (XRat.fin v) (List.foldl ColorMapper.update initCM ds).vmax = true := by
  have hu := fold_update_user_fields ds initCM
  refine ⟨⟨update_vmin_le _ d hu.1, update_vmax_ge _ d hu.2⟩, ?_⟩
  exact fold_update_covers ds initCM rfl rfl

/-- Witness for C1 at a concrete history of data arrays. -/
theorem colormapper_range_only_grows_witness :
    XRat.leb ((List.foldl ColorMapper.update initCM [[1, 3]]).update [2]).vmin
        (List.foldl ColorMapper.update initCM [[1, 3]]).vmin = true ∧
      XRat.leb (List.foldl ColorMapper.update initCM [[1, 3]]).vmin
        (XRat.fin 3) = true :=
  ⟨(colormapper_range_only_grows [[1, 3]] [2]).1.1,
    ((colormapper_range_only_grows [[1, 3]] [2]).2 [1, 3] (by simp) 3
      (by simp)).1⟩

end Plopp

namespace Plopp

theorem rgba_zip_eq {α : Type} (cmap maskCmap : ℚ → α) (nz : ℚ → ℚ) :
    ∀ (vs : List ℚ) (one : List Bool),
      ((vs.map (fun v => cmap (nz v))).zip (vs.zip one)).map
          (fun p => if p.2.2 then maskCmap (nz p.2.1) else p.1) =
        rgbaPointwise cmap maskCmap nz vs one := by
  intro vs
  induction vs with
  | nil => intro one; rfl
  | cons v vs ih =>
    intro one
    cases one with
    | nil => rfl
    | cons b bs =>
      have h := ih bs
      simp only [List.map_cons, List.zip_cons_cons, rgbaPointwise,
        List.zipWith_cons_cons] at h ⊢
      rw [h]

theorem rgbaPointwise_all_false {α : Type} (cmap maskCmap : ℚ → α)
    (nz : ℚ → ℚ) (vs : List ℚ) :
    rgbaPointwise cmap maskCmap nz vs (List.replicate vs.length false) =
      vs.map (fun v => cmap (nz v)) := by
  induction vs with
  | nil => rfl
  | cons v vs ih =>
    simp only [rgbaPointwise, List.length_cons, List.replicate,
      List.zipWith_cons_cons, List.map_cons, if_neg] at ih ⊢
    rw [ih]
    simp

/-- C2: rgba applies the main colormap to the normalized values, except
at the positions covered by the merged masks, where the mask colormap of
the same normalized value is used instead; for a data array with no
masks the result is exactly the main colormap of the normalized
values. -/
theorem rgba_respects_masks {α : Type} (cmap maskCmap : ℚ → α)
    (nz : ℚ → ℚ) (values : List ℚ) (masks : List (List Bool)) :
    rgba cmap maskCmap nz values masks =
        rgbaPointwise cmap maskCmap nz values
          (if masks.isEmpty then List.replicate values.length false
            else mergeMasks masks) ∧
      rgba cmap maskCmap nz values [] =
        values.map (fun v => cmap (nz v)) := by
  constructor
  · by_cases h : masks.isEmpty
    · rw [if_pos h]
      have hnil : masks = [] := List.isEmpty_iff.mp h
      subst hnil
      simp only [rgba, List.isEmpty_nil, if_pos]
      rw [rgbaPointwise_all_false]
    · rw [if_neg h]
      simp only [rgba, h, if_neg, Bool.false_eq_true, not_false_iff]
      rw [rgba_zip_eq]
  · rfl

theorem debouncedInvoke_pending (w t : ℚ) (a : ℕ) (s : DebounceState) :
    (debouncedInvoke w t a s).pending = some (t + w, a) := by
  rcases s with ⟨_ | p⟩ <;> rfl

theorem runBurst_closely (w : ℚ) :
    ∀ (invs : List (ℚ × ℕ)) (t0 : ℚ) (a0 : ℕ),
      List.Chain (closelySpaced w) (t0, a0) invs →
      runBurst w { pending := some (t0 + w, a0) } invs =
        ([], { pending := some ((lastP (t0, a0) invs).1 + w,
          (lastP (t0, a0) invs).2) }) := by
  intro invs
  induction invs with
  | nil => intro t0 a0 _; rfl
  | cons q rest ih =>
    intro t0 a0 h
    rcases q with ⟨t1, a1⟩
    cases h with
    | cons hrel hchain =>
      have hlt : ¬ (t0 + w < t1) := by
        rcases hrel with ⟨hle, hgap⟩
        intro hc
        simp only at hle hgap
        linarith
      simp only [runBurst, fireDue, hlt, if_false, debouncedInvoke]
      rw [ih t1 a1 hchain]
      simp [lastP]

/-- C3: each invocation of the debounced wrapper cancels any pending
timer and schedules the wrapped call wait seconds later, so a finite
burst of invocations spaced less than wait apart executes the wrapped
body exactly once, with the arguments of the last invocation, at time
wait after that last invocation (hence never earlier). -/
theorem debounce_single_execution (w t0 : ℚ) (a0 : ℕ) (rest : List (ℚ × ℕ))
    (hchain : List.Chain (closelySpaced w) (t0, a0) rest) :
    (∀ (s : DebounceState) (u : ℚ) (b : ℕ),
        (debouncedInvoke w u b s).pending = some (u + w, b)) ∧
      runDebounced w ((t0, a0) :: rest) =
        [((lastP (t0, a0) rest).1 + w, (lastP (t0, a0) rest).2)] := by
  refine ⟨fun s u b => debouncedInvoke_pending w u b s, ?_⟩
  unfold runDebounced
  simp only [runBurst, fireDue, debouncedInvoke]
  rw [runBurst_closely w rest t0 a0 hchain]
  rfl

/-- Witness for C3: a burst of two invocations half a time unit apart
with wait one executes once, with the second arguments, one time unit
after the second invocation. -/
theorem debounce_single_execution_witness :
    runDebounced 1 [((0 : ℚ), 5), (1/2, 7)] = [(1/2 + 1, 7)] := by
  have h := (debounce_single_execution 1 0 5 [(1/2, 7)]
    (List.Chain.cons (by constructor <;> norm_num) List.Chain.nil)).2
  simpa [lastP] using h

/-- C4: the inspector function reports the dimension ValueError exactly
when the input is not three-dimensional, and in that case no figure or
widget has been created. -/
theorem inspector_dim_check (n : ℕ) :
    ((inspectorRun n).2.isSome ↔ n ≠ 3) ∧
      ((inspectorRun n).2.isSome → (inspectorRun n).1 = []) := by
  by_cases h : n = 3 <;> simp [inspectorRun, h]

/-- Witness for C4 at a two-dimensional input. -/
theorem inspector_dim_check_witness :
    (inspectorRun 2).2.isSome = true ∧ (inspectorRun 2).1 = [] := by
  have h := inspector_dim_check 2
  have h2 : (inspectorRun 2).2.isSome := h.1.mpr (by decide)
  exact ⟨h2, h.2 h2⟩

/-- C5: for a binned input the scatter path raises the binned-data
validation error during preprocessing, before any coordinate is
extracted, and no figure is returned. -/
theorem scatter_binned_raises (obj : SDA) (x y : String) (size : Option String)
    (h : obj.binned = true) :
    preprocessScatter obj x y size = Except.error "Cannot plot binned data" ∧
      scatterRun obj x y size = Except.error "Cannot plot binned data" := by
  have hp : preprocessScatter obj x y size =
      Except.error "Cannot plot binned data" := by
    simp [preprocessScatter, fromCompatibleLib, checkNotBinned, h]
  exact ⟨hp, by simp [scatterRun, hp]⟩

/-- Witness for C5: a binned data array with no coordinates at all still
produces the binned-data error, showing the validation runs before
coordinate extraction. -/
theorem scatter_binned_raises_witness :
    scatterRun { binned := true, coords := [] } "x" "y" none =
      Except.error "Cannot plot binned data" :=
  (scatter_binned_raises { binned := true, coords := [] } "x" "y" none rfl).2

/-- C6: update_node installs on the event node a function returning the
new x/y positions as scalars carrying the units of the corresponding
coordinates, and the notified children recompute from exactly these new
positions. -/
theorem update_node_uses_new_positions {β : Type} (h : InspHandler)
    (g : InspGraph β) (ev : InspEvent) :
    (updateNode h g ev).nodeFunc () = newPosFunc h ev ∧
      (updateNode h g ev).childViews =
        g.childComputes.map (fun f => f (newPosFunc h ev)) ∧
      newPosFunc h ev =
        ((h.xdim, { value := ev.xdata, unit := h.metaUnit h.xdim }),
          (h.ydim, { value := ev.ydata, unit := h.metaUnit h.ydim })) :=
  ⟨rfl, rfl, rfl⟩

/-- C7: with autoscale grow and no user bounds, Canvas.autoscale leaves
the stored lower bounds no larger and the stored upper bounds no
smaller; with autoscale auto the stored bounds are replaced by the
limits computed from the current artists. -/
theorem canvas_autoscale_grow_vs_auto (c : Canvas)
    (L : Option ((ℚ × ℚ) × (ℚ × ℚ))) (M : List MeshCoords)
    (hm : c.user_vmin = none) (hM : c.user_vmax = none) :
    (c.autoscaleMode = AutoscaleMode.grow →
      XRat.leb (c.autoscale L M).xmin c.xmin = true ∧
        XRat.leb c.xmax (c.autoscale L M).xmax = true ∧
        XRat.leb (c.autoscale L M).ymin c.ymin = true ∧
        XRat.leb c.ymax (c.autoscale L M).ymax = true) ∧
      (c.autoscaleMode = AutoscaleMode.auto →
        (c.autoscale L M).xmin = (artistLimits L M).1.1 ∧
          (c.autoscale L M).xmax = (artistLimits L M).1.2 ∧
          (c.autoscale L M).ymin = (artistLimits L M).2.1 ∧
          (c.autoscale L M).ymax = (artistLimits L M).2.2) := by
  constructor
  · intro hg
    simp only [Canvas.autoscale, hg, hm, hM]
    exact ⟨XRat.minB_leb_left _ _, XRat.leb_maxB_left _ _,
      XRat.minB_leb_left _ _, XRat.leb_maxB_left _ _⟩
  · intro ha
    simp [Canvas.autoscale, ha, hm, hM]

/-- Witness for C7 at a concrete canvas in grow mode. -/
theorem canvas_autoscale_grow_vs_auto_witness :
    XRat.leb
        (Canvas.autoscale
          { user_vmin := none, user_vmax := none,
            autoscaleMode := AutoscaleMode.grow, xmin := XRat.fin 0,
            xmax := XRat.fin 1, ymin := XRat.fin 0, ymax := XRat.fin 1 }
          none [{ xs := [0, 2], ys := [0, 2] }]).xmin
        (XRat.fin 0) = true :=
  ((canvas_autoscale_grow_vs_auto
      { user_vmin := none, user_vmax := none,
        autoscaleMode := AutoscaleMode.grow, xmin := XRat.fin 0,
        xmax := XRat.fin 1, ymin := XRat.fin 0, ymax := XRat.fin 1 }
      none [{ xs := [0, 2], ys := [0, 2] }] rfl rfl).1 rfl).1

theorem sliceDims_none_foldl (slices : List (String × ℕ)) :
    List.foldl (fun out p => Option.bind out (fun o => sliceOneD o p.1 p.2))
        (none : Option DArr) slices = none := by
  induction slices with
  | nil => rfl
  | cons p rest ih => simpa using ih

/-- C8: slice_dims slices the data array successively along each
dimension of the dict at the given position, in iteration order, and
returns the input unchanged for an empty dict. -/
theorem slice_dims_is_successive (da : DArr) (slices : List (String × ℕ)) :
    sliceDims da slices = sliceSeq da slices ∧ sliceDims da [] = some da := by
  refine ⟨?_, rfl⟩
  induction slices generalizing da with
  | nil => rfl
  | cons p rest ih =>
    simp only [sliceDims, List.foldl_cons, Option.some_bind]
    cases h : sliceOneD da p.1 p.2 with
    | some o =>
      have := ih o
      simp only [sliceDims] at this
      simp [sliceSeq, h, this]
    | none => simp [sliceSeq, h, sliceDims_none_foldl]

end Plopp

namespace Plopp

theorem updMin_some (a v : ℚ) : updMin (some a) v = some (min a v) := by
  by_cases h : v < a
  · simp [updMin, h, min_eq_right (le_of_lt h)]
  · simp [updMin, h, min_eq_left (le_of_not_lt h)]

theorem updMax_some (a v : ℚ) : updMax (some a) v = some (max a v) := by
  by_cases h : a < v
  · simp [updMax, h, max_eq_right (le_of_lt h)]
  · simp [updMax, h, max_eq_left (le_of_not_lt h)]

theorem foldl_updMin_some (xs : List ℚ) (a : ℚ) :
    xs.foldl updMin (some a) = some (xs.foldl min a) := by
  induction xs generalizing a with
  | nil => rfl
  | cons x xs ih =>
    simp only [List.foldl_cons, updMin_some]
    exact ih (min a x)

theorem foldl_updMax_some (xs : List ℚ) (a : ℚ) :
    xs.foldl updMax (some a) = some (xs.foldl max a) := by
  induction xs generalizing a with
  | nil => rfl
  | cons x xs ih =>
    simp only [List.foldl_cons, updMax_some]
    exact ih (max a x)

theorem foldl_updMin_none (x : ℚ) (xs : List ℚ) :
    (x :: xs).foldl updMin none = some (listMin (x :: xs)) := by
  simp only [List.foldl_cons]
  have h : updMin none x = some x := rfl
  rw [h, foldl_updMin_some]
  rfl

theorem foldl_updMax_none (x : ℚ) (xs : List ℚ) :
    (x :: xs).foldl updMax none = some (listMax (x :: xs)) := by
  simp only [List.foldl_cons]
  have h : updMax none x = some x := rfl
  rw [h, foldl_updMax_some]
  rfl

theorem scatterGetLimits_components :
    ∀ (children : List Lims3) (a b c d e f : Option ℚ),
      List.foldl
          (fun acc ch =>
            ((updMin acc.1.1 ch.1.1, updMax acc.1.2 ch.1.2),
              ((updMin acc.2.1.1 ch.2.1.1, updMax acc.2.1.2 ch.2.1.2),
                (updMin acc.2.2.1 ch.2.2.1, updMax acc.2.2.2 ch.2.2.2))))
          ((a, b), ((c, d), (e, f))) children =
        (((children.map fun ch => ch.1.1).foldl updMin a,
          (children.map fun ch => ch.1.2).foldl updMax b),
          (((children.map fun ch => ch.2.1.1).foldl updMin c,
            (children.map fun ch => ch.2.1.2).foldl updMax d),
            ((children.map fun ch => ch.2.2.1).foldl updMin e,
              (children.map fun ch => ch.2.2.2).foldl updMax f))) := by
  intro children
  induction children with
  | nil => intro a b c d e f; rfl
  | cons ch rest ih =>
    intro a b c d e f
    simp only [List.foldl_cons, List.map_cons]
    exact ih _ _ _ _ _ _

/-- C9: for a ScatterFig with at least one point cloud child, get_limits
returns for each axis the minimum of the children's lower limits and the
maximum of the children's upper limits, and so the bounds of every child
lie within the returned global limits. -/
theorem scatter_get_limits_bounds (ch0 : Lims3) (rest : List Lims3) :
    scatterGetLimits (ch0 :: rest) =
        ((some (listMin ((ch0 :: rest).map fun ch => ch.1.1)),
          some (listMax ((ch0 :: rest).map fun ch => ch.1.2))),
          ((some (listMin ((ch0 :: rest).map fun ch => ch.2.1.1)),
            some (listMax ((ch0 :: rest).map fun ch => ch.2.1.2))),
            (some (listMin ((ch0 :: rest).map fun ch => ch.2.2.1)),
              some (listMax ((ch0 :: rest).map fun ch => ch.2.2.2))))) ∧
      ∀ ch, ch ∈ ch0 :: rest →
        (listMin ((ch0 :: rest).map fun c => c.1.1) ≤ ch.1.1 ∧
            ch.1.2 ≤ listMax ((ch0 :: rest).map fun c => c.1.2)) ∧
          (listMin ((ch0 :: rest).map fun c => c.2.1.1) ≤ ch.2.1.1 ∧
            ch.2.1.2 ≤ listMax ((ch0 :: rest).map fun c => c.2.1.2)) ∧
          (listMin ((ch0 :: rest).map fun c => c.2.2.1) ≤ ch.2.2.1 ∧
            ch.2.2.2 ≤ listMax ((ch0 :: rest).map fun c => c.2.2.2)) := by
  constructor
  · unfold scatterGetLimits
    rw [scatterGetLimits_components]
    simp only [List.map_cons]
    rw [foldl_updMin_none, foldl_updMax_none, foldl_updMin_none,
      foldl_updMax_none, foldl_updMin_none, foldl_updMax_none]
  · intro ch hch
    refine ⟨⟨?_, ?_⟩, ⟨?_, ?_⟩, ⟨?_, ?_⟩⟩ <;>
      first
      | exact listMin_le_mem (List.mem_map_of_mem _ hch)
      | exact mem_le_listMax (List.mem_map_of_mem _ hch)

/-- Witness for C9 at two concrete children. -/
theorem scatter_get_limits_bounds_witness :
    scatterGetLimits [((0, 1), ((0, 1), (0, 1))), ((-1, 2), ((0, 1), (0, 1)))] =
        ((some (listMin [0, -1]), some (listMax [1, 2])),
          ((some (listMin [0, 0]), some (listMax [1, 1])),
            (some (listMin [0, 0]), some (listMax [1, 1])))) ∧
      listMin [0, -1] ≤ (0 : ℚ) :=
  ⟨(scatter_get_limits_bounds ((0, 1), ((0, 1), (0, 1)))
      [((-1, 2), ((0, 1), (0, 1)))]).1,
    (((scatter_get_limits_bounds ((0, 1), ((0, 1), (0, 1)))
      [((-1, 2), ((0, 1), (0, 1)))]).2 ((0, 1), ((0, 1), (0, 1)))
      (by simp)).1).1⟩

/-- C10: the claim that every slider value is a valid positional index
fails on the code: SliceWidget builds each slider with max equal to the
full size of the dimension, so the largest slider value equals the size
and is out of range, and slicing there fails, while the intended largest
valid index (size minus one) slices fine. -/
theorem slider_max_is_out_of_range :
    sliderMinOf exDA "x" = 0 ∧ sliderMaxOf exDA "x" = 2 ∧
      (sliceOneD exDA "x" 2).isNone = true ∧
      (sliceOneD exDA "x" 1).isSome = true := by
  refine ⟨rfl, rfl, ?_, ?_⟩ <;> decide

end Plopp
